import Mathlib

/-! # Verification of the ackulator base crate

A shallow embedding of the unit-and-precision evaluation engine of the
ackulator repository (crate `base`): the composite unit algebra
(`src/base/src/units.rs`), scalar precision arithmetic
(`src/base/src/scalar.rs`), and the instance / evaluator
(`src/base/src/instance.rs`, `src/base/src/storage.rs`,
`src/base/src/data.rs`, `src/base/src/expression.rs`).

Modelling conventions:
* Rust `f64` values are modelled as real numbers; `f64` arithmetic is exact
  real arithmetic.  NaN and overflow behaviour is outside the model, so
  theorems that depend on `log10` restrict to positive inputs.
* `f64 as i32` and `f64::trunc` both truncate toward zero; both are
  modelled by `f64trunc` (i32 saturation is never reached in any statement
  below).
* Arena indices (`StorageId<T>`) are natural numbers (their `usize` index).
* `HashMap` keys are modelled as association lists where insertion prepends
  and lookup takes the first hit, matching the map's observable behaviour.
* `debug_assert!`/`debug_assert_eq!` are modelled with assertions enabled
  (debug builds): their argument expressions are evaluated, and a false
  assertion is a panic.  In particular `debug_assert_eq!(pool.push(x), id)`
  does perform the push (the equality always holds by construction of
  `StoragePool`), and the `debug_assert!(false)` branch reached by an empty
  unit alias is a panic outcome.
-/

namespace Ackulator

noncomputable section

/-- Rust's truncation of an `f64` toward zero (`f64::trunc`, and the
`as i32` cast for finite in-range values), as an integer. -/
def f64trunc (x : ℝ) : ℤ := if 0 ≤ x then ⌊x⌋ else ⌈x⌉

/-- Rust `f64::log10` modelled as the real base-10 logarithm.
(For non-positive arguments Rust produces NaN / -inf; theorems using
this model therefore assume positive arguments.) -/
def f64log10 (x : ℝ) : ℝ := Real.logb 10 x

/-! ## units.rs: `QuantityBag` and `Composite`

`QuantityBag<T>` is a list of `(power : f64, item : T)` pairs kept sorted
by item.  `Composite<I>` wraps it.  Powers are modelled as reals. -/

/-- The cancellation threshold `1e-10` from `units.rs`. -/
def EPSILON : ℝ := 1 / 10 ^ 10

/-- `QuantityBag::mul`: clears the bag when the factor is `0.0`, otherwise
scales every power by the factor. -/
def bagMul {I : Type} (factor : ℝ) (items : List (ℝ × I)) : List (ℝ × I) :=
  if factor = 0 then [] else items.map fun p => (p.1 * factor, p.2)

/-- `QuantityBag::union`: merge of two item-sorted factor lists; powers of
equal items are summed and the entry is dropped when the summed power is
not larger than `1e-10` in absolute value (`new_quantity.abs() > 1e-10`
keeps it). The two early returns for an empty side in the source are the
first two equations. -/
def mergeFactors {I : Type} [LinearOrder I] :
    List (ℝ × I) → List (ℝ × I) → List (ℝ × I)
  | [], ys => ys
  | x :: xs, [] => x :: xs
  | x :: xs, y :: ys =>
    if x.2 < y.2 then
      x :: mergeFactors xs (y :: ys)
    else if y.2 < x.2 then
      y :: mergeFactors (x :: xs) ys
    else
      let q := x.1 + y.1
      if EPSILON < |q| then (q, x.2) :: mergeFactors xs ys
      else mergeFactors xs ys
termination_by a b => a.length + b.length

/-- `Composite<I>`: a signed-power multiset of identifiers, the factor list
sorted by identifier. -/
structure Composite (I : Type) where
  factors : List (ℝ × I)

/-- `Composite::identity()`. -/
def Composite.identity {I : Type} : Composite I := ⟨[]⟩

/-- `Composite::is_identity()`: the factor list is empty. -/
def Composite.is_identity {I : Type} (c : Composite I) : Bool :=
  c.factors.length == 0

/-- `impl From<I> for Composite<I>`: singleton composite with power `1.0`. -/
def Composite.fromId {I : Type} (i : I) : Composite I := ⟨[(1, i)]⟩

/-- `impl Mul for Composite`: union of the factor lists. -/
def Composite.mul {I : Type} [LinearOrder I] (a b : Composite I) : Composite I :=
  ⟨mergeFactors a.factors b.factors⟩

/-- The divisor preprocessing inside `impl Div`: `rhs.factors.mul(-1.0)`,
i.e. the composite with every power negated. -/
def Composite.negated {I : Type} (b : Composite I) : Composite I :=
  ⟨bagMul (-1) b.factors⟩

/-- `impl Div for Composite`: negate the divisor's powers, then union. -/
def Composite.div {I : Type} [LinearOrder I] (a b : Composite I) : Composite I :=
  Composite.mul a (Composite.negated b)

/-- `impl DivAssign for Composite`, exactly as written in the source:
`*self = self.clone() * rhs;` — note that the body multiplies. -/
def Composite.divAssign {I : Type} [LinearOrder I] (a b : Composite I) :
    Composite I :=
  Composite.mul a b

/-- `Composite::pow`: scale every power by the exponent
(`self.factors.mul(exp)`). -/
def Composite.pow {I : Type} (c : Composite I) (exp : ℝ) : Composite I :=
  ⟨bagMul exp c.factors⟩

/-- `impl PartialEq for Composite`: dimensional equality,
`(self / other).is_identity()`. -/
def Composite.eqb {I : Type} [LinearOrder I] (a b : Composite I) : Bool :=
  (Composite.div a b).is_identity

/-- `CompositeUnitClass = Composite<UnitClassId>`; ids are arena indices. -/
abbrev CompositeUnitClass := Composite ℕ

/-- `CompositeUnit = Composite<UnitId>`; ids are arena indices. -/
abbrev CompositeUnit := Composite ℕ

/-! ## scalar.rs: `Precision` and `Scalar` -/

/-- `Precision`: exact, significant figures (an `i32`), or percent error. -/
inductive Precision where
  | SigFigs (sf : ℤ)
  | PercentError (p : ℝ)
  | Exact

/-- `Precision::percent_error(for_value)`.  For `SigFigs(sf)` the source
computes `10f64.powi(for_value.log10().trunc() as i32 + 1 - sf)` as the
absolute error range and returns `range / for_value`. -/
def Precision.percent_error (p : Precision) (for_value : ℝ) : ℝ :=
  match p with
  | .SigFigs sf => ((10 : ℝ) ^ (f64trunc (f64log10 for_value) + 1 - sf)) / for_value
  | .PercentError p => p
  | .Exact => 0

/-- `Scalar`: a value in base units, its precision, its dimension
(`unit : CompositeUnitClass`) and its display unit. -/
structure Scalar where
  value : ℝ
  precision : Precision
  unit : CompositeUnitClass
  display_unit : CompositeUnit

/-- The `scones`-generated `Scalar::new` constructor: stores all four
fields verbatim, with no validation. -/
def Scalar.new (value : ℝ) (precision : Precision) (unit : CompositeUnitClass)
    (display_unit : CompositeUnit) : Scalar :=
  ⟨value, precision, unit, display_unit⟩

/-- `impl Neg for Scalar`: negates the value only. -/
def Scalar.neg (s : Scalar) : Scalar := { s with value := -s.value }

/-- `Scalar::add`.  Fails (`Err`) exactly when `self.unit != other.unit`
under the composites' dimensional `PartialEq`.  On success the precision is
combined as in the source: `Exact` is transparent, two `SigFigs` combine
through last-significant-digit exponents with the count floored at 0, and a
`PercentError` operand combines through summed absolute ranges. -/
def Scalar.add (s other : Scalar) : Option Scalar :=
  if Composite.eqb s.unit other.unit = false then
    Option.none
  else
    let new_value := s.value + other.value
    let lhs_order := f64trunc (f64log10 s.value)
    let rhs_order := f64trunc (f64log10 other.value)
    let new_order := f64trunc (f64log10 new_value)
    let new_precision :=
      match s.value, s.precision, other.value, other.precision with
      | _, Precision.Exact, _, Precision.Exact => Precision.Exact
      | _, Precision.Exact, _, other => other
      | _, other, _, Precision.Exact => other
      | _, Precision.SigFigs lhs_sf, _, Precision.SigFigs rhs_sf =>
        let last_known_digit := max (lhs_order - lhs_sf) (rhs_order - rhs_sf)
        Precision.SigFigs (max (new_order - last_known_digit) 0)
      | pct_value, Precision.PercentError pct, other_value, other
      | other_value, other, pct_value, Precision.PercentError pct =>
        let pct_range := pct_value * pct
        let other_range := other_value * Precision.percent_error other other_value
        let new_range := pct_range + other_range
        Precision.PercentError (new_range / new_value)
    Option.some
      { value := new_value, precision := new_precision,
        unit := s.unit, display_unit := s.display_unit }

/-- `Scalar::sub`: `self.add(&-other.clone())`. -/
def Scalar.sub (s other : Scalar) : Option Scalar :=
  Scalar.add s (Scalar.neg other)

/-- `impl Mul for Scalar`: value product, dimensional product of the unit
composites, and the multiplicative precision-combination rule. -/
def Scalar.mulOp (s rhs : Scalar) : Scalar :=
  let new_precision :=
    match s.value, s.precision, rhs.value, rhs.precision with
    | _, Precision.Exact, _, Precision.Exact => Precision.Exact
    | _, Precision.Exact, _, other => other
    | _, other, _, Precision.Exact => other
    | _, Precision.SigFigs lhs_sf, _, Precision.SigFigs rhs_sf =>
      Precision.SigFigs (min lhs_sf rhs_sf)
    | _, Precision.PercentError pct, rhs_value, rhs
    | rhs_value, rhs, _, Precision.PercentError pct =>
      let rhs_pct := Precision.percent_error rhs rhs_value
      Precision.PercentError (Real.sqrt (pct * pct + rhs_pct * rhs_pct))
  { value := s.value * rhs.value, precision := new_precision,
    unit := Composite.mul s.unit rhs.unit,
    display_unit := Composite.mul s.display_unit rhs.display_unit }

/-- `impl Div for Scalar`: value quotient, dimensional quotient of the unit
composites, same precision-combination rule as multiplication. -/
def Scalar.divOp (s rhs : Scalar) : Scalar :=
  let new_precision :=
    match s.value, s.precision, rhs.value, rhs.precision with
    | _, Precision.Exact, _, Precision.Exact => Precision.Exact
    | _, Precision.Exact, _, other => other
    | _, other, _, Precision.Exact => other
    | _, Precision.SigFigs lhs_sf, _, Precision.SigFigs rhs_sf =>
      Precision.SigFigs (min lhs_sf rhs_sf)
    | _, Precision.PercentError pct, rhs_value, rhs
    | rhs_value, rhs, _, Precision.PercentError pct =>
      let rhs_pct := Precision.percent_error rhs rhs_value
      Precision.PercentError (Real.sqrt (pct * pct + rhs_pct * rhs_pct))
  { value := s.value / rhs.value, precision := new_precision,
    unit := Composite.div s.unit rhs.unit,
    display_unit := Composite.div s.display_unit rhs.display_unit }

/-! ## units.rs: `UnitClass`, `Unit`, metric prefixes -/

/-- `UnitClass`: a dimension with one or more alias names. -/
structure UnitClass where
  names : List String

/-- `Unit`: aliases, the dimension it measures (`class` in the source,
`class_` here since `class` is a Lean keyword), display symbol, and the
base-conversion ratio. -/
structure Unit where
  names : List String
  class_ : CompositeUnitClass
  symbol : String
  baseRatio : ℝ

/-- `METRIC_PREFIXES`: the 20 standard prefixes
(name, abbreviation, power-of-ten factor). -/
def METRIC_PREFIXES : List (String × String × ℝ) :=
  [("Yotta", "Y", 1e24), ("Zetta", "Z", 1e21), ("Exa", "E", 1e18),
   ("Peta", "P", 1e15), ("Tera", "T", 1e12), ("Giga", "G", 1e9),
   ("Mega", "M", 1e6), ("Kilo", "k", 1e3), ("Hecto", "h", 1e2),
   ("Deka", "da", 1e1),
   ("Deci", "d", 1e-1), ("Centi", "c", 1e-2), ("Milli", "m", 1e-3),
   ("Micro", "μ", 1e-6), ("Nano", "n", 1e-9), ("Pico", "p", 1e-12),
   ("Femto", "f", 1e-15), ("Atto", "a", 1e-18), ("Zepto", "z", 1e-21),
   ("Yocto", "y", 1e-24)]

/-- `SMALL_PREFIXES_START`: index of the first sub-unity prefix (`Deci`). -/
def SMALL_PREFIXES_START : ℕ := 10

/-- `UnitPrefixType`: plain, full metric, or only magnitude-reducing
prefixes. -/
inductive UnitPrefixType where
  | None
  | Metric
  | PartialMetric

/-! ## data.rs / entity.rs: the `Data` lattice

`ValueData` is modelled with the `String` variant required by
`instance.rs` (which pattern-matches `ValueData::String` and converts a
`String` into `Data`) and described by the spec.  The declaration in
`data.rs` itself omits that variant; `ValueDataAsDeclared` below mirrors
that declaration verbatim, see claim C9. -/

mutual

/-- `MetaData`: a unit-class composite, a unit composite, or an entity
class id. -/
inductive MetaData where
  | UnitClass (c : CompositeUnitClass)
  | Unit (u : CompositeUnit)
  | EntityClass (id : ℕ)

/-- `Data = Meta(MetaData) | Value(ValueData)`. -/
inductive Data where
  | Meta (m : MetaData)
  | Value (v : ValueData)

/-- `ValueData` as used by `instance.rs`: scalar, entity, or string. -/
inductive ValueData where
  | Scalar (s : Scalar)
  | Entity (e : Entity)
  | String (s : String)

/-- `Entity`: named properties (a `HashMap`, modelled as a list) and a set
of entity-class ids (modelled as a duplicate-free list). -/
inductive Entity where
  | mk (properties : List (String × Data)) (classes : List ℕ)

end

/-- The exact `ValueData` sum type declared in `data.rs` lines 38–43:
only `Scalar` and `Entity` variants. -/
inductive ValueDataAsDeclared where
  | Scalar (s : Scalar)
  | Entity (e : Entity)

/-- `EntityClass`: alias names. -/
structure EntityClass where
  names : List String

/-! ## instance.rs: `ManyToOneMap` and `Instance` -/

/-- `ManyToOneMap<String, V>`: items in a vector, many keys mapping to one
vector index.  The key `HashMap` is modelled as an association list where
insertion prepends and lookup takes the first hit. -/
structure ManyToOneMap (V : Type) where
  items : List V
  keys : List (String × ℕ)

/-- `ManyToOneMap::new()`. -/
def ManyToOneMap.empty {V : Type} : ManyToOneMap V := ⟨[], []⟩

/-- Index lookup in the key map. -/
def ManyToOneMap.getIdx {V : Type} (m : ManyToOneMap V) (k : String) : Option ℕ :=
  m.keys.lookup k

/-- `self.keys.contains_key(k)`. -/
def ManyToOneMap.containsKey {V : Type} (m : ManyToOneMap V) (k : String) : Bool :=
  (m.getIdx k).isSome

/-- `ManyToOneMap::contains_any_key`. -/
def ManyToOneMap.containsAnyKey {V : Type} (m : ManyToOneMap V)
    (ks : List String) : Bool :=
  ks.any fun k => m.containsKey k

/-- `ManyToOneMap::insert`: push the item, then point every key at its
index. -/
def ManyToOneMap.insert {V : Type} (m : ManyToOneMap V) (ks : List String)
    (v : V) : ManyToOneMap V :=
  { items := m.items ++ [v],
    keys := (ks.map fun k => (k, m.items.length)) ++ m.keys }

/-- `ManyToOneMap::get`. -/
def ManyToOneMap.get {V : Type} (m : ManyToOneMap V) (k : String) : Option V :=
  (m.getIdx k).bind fun i => m.items.get? i

/-- `ManyToOneMap::get_key_value` (the stored key equals the queried key). -/
def ManyToOneMap.get_key_value {V : Type} (m : ManyToOneMap V) (k : String) :
    Option (String × V) :=
  (m.getIdx k).bind fun i => (m.items.get? i).map fun v => (k, v)

/-- `Instance`: the three append-only arenas (`StoragePool`s, modelled as
lists indexed by position) and the three name→data namespaces. -/
structure Instance where
  unit_classes : List UnitClass
  units : List Unit
  entity_classes : List EntityClass
  meta_items : ManyToOneMap MetaData
  values : ManyToOneMap Entity
  labels : ManyToOneMap Data

/-- `Instance::new()`. -/
def Instance.new : Instance :=
  ⟨[], [], [], ManyToOneMap.empty, ManyToOneMap.empty, ManyToOneMap.empty⟩

/-- A default `Unit` for modelling arena indexing (`instance[unit_id]`
panics when out of range in the source; on in-range indices — the only
ones reachable, by the arena invariant — the default is never used). -/
def defaultUnit : Unit := ⟨[], Composite.identity, "", 1⟩

/-- `instance[unit_id]` for `UnitId`s. -/
def Instance.getUnit (inst : Instance) (id : ℕ) : Unit :=
  (inst.units.get? id).getD defaultUnit

/-- `CompositeUnit::base_ratio`: product over the factors of
`unit.base_ratio ^ power` (Rust `powf`, modelled by real `rpow`). -/
def CompositeUnit.base_ratio (c : CompositeUnit) (inst : Instance) : ℝ :=
  c.factors.foldl (fun ratio pu => ratio * (inst.getUnit pu.2).baseRatio ^ pu.1) 1

/-- `CompositeUnit::unit_class`: union, across factors, of each factor
unit's dimension composite scaled by the factor's power. -/
def CompositeUnit.unit_class (c : CompositeUnit) (inst : Instance) :
    CompositeUnitClass :=
  c.factors.foldl
    (fun result pu =>
      ⟨mergeFactors result.factors (bagMul pu.1 (inst.getUnit pu.2).class_.factors)⟩)
    Composite.identity

/-- `CompositeUnit::as_scalar`: an `Exact` scalar whose value is the
composite's base ratio, dimensioned by its unit class, displayed in the
composite itself. -/
def CompositeUnit.as_scalar (c : CompositeUnit) (inst : Instance) : Scalar :=
  Scalar.new (c.base_ratio inst) Precision.Exact (c.unit_class inst) c

/-- `Scalar::display_value`: `value / display_unit.base_ratio(instance)`. -/
def Scalar.display_value (s : Scalar) (inst : Instance) : ℝ :=
  s.value / s.display_unit.base_ratio inst

/-- `Scalar::pow`: exponent is the exponent scalar's display value; the
value is `powf`ed and both unit composites are raised via
`Composite::pow`.  Always returns `Ok`. -/
def Scalar.powOp (s other : Scalar) (inst : Instance) : Option Scalar :=
  let exp := other.display_value inst
  Option.some
    { s with value := s.value ^ exp, unit := s.unit.pow exp,
             display_unit := s.display_unit.pow exp }

/-! ## expression.rs: the expression tree -/

/-- `UnaryOp`. -/
inductive UnaryOp where
  | Negate

/-- `BinaryOp`. -/
inductive BinaryOp where
  | Add
  | Sub
  | Mul
  | Div
  | Pow

/-- `Expression`. -/
inductive Expression where
  | NumericLiteral (v : ℝ)
  | StringLiteral (s : String)
  | LookupName (n : String)
  | UnaryExpr (op : UnaryOp) (rhs : Expression)
  | BinaryExpr (lhs : Expression) (op : BinaryOp) (rhs : Expression)
  | ApplyFunction (function : Expression) (arguments : List Expression)
  | BuildEntity (properties : List (String × Expression)) (class_names : List String)

/-! ## instance.rs: lookup, ambiguity resolution, evaluation -/

/-- `AmbiguousItem`: up to one hit per namespace.  Following
`instance.rs`, the value namespace stores `Entity` (the `data.rs`
declaration of this struct still says `ValueData`; `lookup_item` passes
`values.get(name)`, an `Option<&Entity>`). -/
structure AmbiguousItem where
  as_meta : Option MetaData
  as_value : Option Entity
  as_label : Option (String × Data)

/-- `Instance::lookup_item`. -/
def Instance.lookup_item (inst : Instance) (name : String) : AmbiguousItem :=
  { as_meta := inst.meta_items.get name,
    as_value := inst.values.get name,
    as_label := inst.labels.get_key_value name }

/-- `AmbiguityResolutionContext`. -/
inductive AmbiguityResolutionContext where
  | PreferMetaItems
  | PreferValues

/-- `AmbiguityResolutionContext::resolve`: the preferred namespace first,
then the fall-through order value → meta → label. -/
def AmbiguityResolutionContext.resolve (ctx : AmbiguityResolutionContext)
    (item : AmbiguousItem) : Option Data :=
  let fallthrough : Option Data :=
    match item.as_value with
    | Option.some e => Option.some (Data.Value (ValueData.Entity e))
    | Option.none =>
      match item.as_meta with
      | Option.some m => Option.some (Data.Meta m)
      | Option.none =>
        match item.as_label with
        | Option.some nd => Option.some nd.2
        | Option.none => Option.none
  match ctx with
  | .PreferMetaItems =>
    match item.as_meta with
    | Option.some m => Option.some (Data.Meta m)
    | Option.none => fallthrough
  | .PreferValues =>
    match item.as_value with
    | Option.some e => Option.some (Data.Value (ValueData.Entity e))
    | Option.none => fallthrough

/-- Outcome of an evaluation: `Ok`, `Err`, or a panic (`unimplemented!`,
`unreachable!`, index out of range, …).  `Result<T, ()>` with the panic
outcome made explicit. -/
inductive Res (α : Type) where
  | ok (a : α)
  | err
  | panicked

/-- The `?` operator on `Res`. -/
def Res.bind {α β : Type} : Res α → (α → Res β) → Res β
  | .ok a, f => f a
  | .err, _ => .err
  | .panicked, _ => .panicked

/-- `Instance::resolve_unary_expression`: only `Negate` on a scalar value
is defined. -/
def Instance.resolve_unary_expression (_inst : Instance) (op : UnaryOp)
    (rhs : Data) : Res Data :=
  match op, rhs with
  | .Negate, Data.Value (ValueData.Scalar d) =>
    .ok (Data.Value (ValueData.Scalar (Scalar.neg d)))
  | .Negate, _ => .err

/-- Lift `Result<Scalar, ()>` returned by `Scalar::add`/`sub`/`pow` into
an evaluation outcome (`.map(Into::into)`). -/
def scalarRes : Option Scalar → Res Data
  | Option.some s => .ok (Data.Value (ValueData.Scalar s))
  | Option.none => .err

/-- `Instance::resolve_binary_expression`: the exhaustive match over
`(Data, Data)` pairs, arms in source order (first match wins). -/
def Instance.resolve_binary_expression (inst : Instance) (lhs : Data)
    (op : BinaryOp) (rhs : Data) : Res Data :=
  match lhs, rhs with
  | Data.Meta (MetaData.EntityClass _), _ => .err
  | _, Data.Meta (MetaData.EntityClass _) => .err
  | Data.Meta (MetaData.Unit _), Data.Meta (MetaData.UnitClass _) => .err
  | Data.Meta (MetaData.UnitClass _), Data.Meta (MetaData.Unit _) => .err
  | Data.Value (ValueData.Entity _), _ => .err
  | _, Data.Value (ValueData.Entity _) => .err
  | Data.Value (ValueData.String _), _ => .err
  | _, Data.Value (ValueData.String _) => .err
  | Data.Meta (MetaData.Unit l), Data.Meta (MetaData.Unit r) =>
    match op with
    | .Add | .Sub | .Pow => .err
    | .Mul => .ok (Data.Meta (MetaData.Unit (Composite.mul l r)))
    | .Div => .ok (Data.Meta (MetaData.Unit (Composite.div l r)))
  | Data.Meta (MetaData.UnitClass l), Data.Meta (MetaData.UnitClass r) =>
    match op with
    | .Add | .Sub | .Pow => .err
    | .Mul => .ok (Data.Meta (MetaData.UnitClass (Composite.mul l r)))
    | .Div => .ok (Data.Meta (MetaData.UnitClass (Composite.div l r)))
  | Data.Value (ValueData.Scalar l), Data.Meta (MetaData.Unit r) =>
    match op with
    | .Add | .Sub | .Pow => .err
    | .Mul => .ok (Data.Value (ValueData.Scalar (Scalar.mulOp l (r.as_scalar inst))))
    | .Div => .ok (Data.Value (ValueData.Scalar (Scalar.divOp l (r.as_scalar inst))))
  | Data.Meta (MetaData.Unit l), Data.Value (ValueData.Scalar r) =>
    match op with
    | .Add | .Sub | .Pow => .err
    | .Mul => .ok (Data.Value (ValueData.Scalar (Scalar.mulOp (l.as_scalar inst) r)))
    | .Div => .ok (Data.Value (ValueData.Scalar (Scalar.divOp (l.as_scalar inst) r)))
  | Data.Value (ValueData.Scalar _), Data.Meta (MetaData.UnitClass _) => .err
  | Data.Meta (MetaData.UnitClass _), Data.Value (ValueData.Scalar _) => .err
  | Data.Value (ValueData.Scalar l), Data.Value (ValueData.Scalar r) =>
    match op with
    | .Add => scalarRes (Scalar.add l r)
    | .Sub => scalarRes (Scalar.sub l r)
    | .Mul => .ok (Data.Value (ValueData.Scalar (Scalar.mulOp l r)))
    | .Div => .ok (Data.Value (ValueData.Scalar (Scalar.divOp l r)))
    | .Pow => scalarRes (Scalar.powOp l r inst)

/-- `HashSet::insert` on the modelled class-id set. -/
def setInsert (x : ℕ) (s : List ℕ) : List ℕ :=
  if x ∈ s then s else s ++ [x]

/-- The class-tag resolution loop of the `BuildEntity` arm: each name must
resolve to an `EntityClass` meta item, else the whole evaluation fails. -/
def Instance.resolveClassNames (inst : Instance) (acc : List ℕ) :
    List String → Option (List ℕ)
  | [] => Option.some acc
  | n :: rest =>
    match inst.meta_items.get n with
    | Option.some (MetaData.EntityClass id) =>
      Instance.resolveClassNames inst (setInsert id acc) rest
    | _ => Option.none

mutual

/-- `Instance::resolve_expression`.  The `ApplyFunction` arm is
`unimplemented!()` in the source, which panics. -/
def Instance.resolve_expression (inst : Instance)
    (ctx : AmbiguityResolutionContext) : Expression → Res Data
  | .NumericLiteral v =>
    .ok (Data.Value (ValueData.Scalar
      (Scalar.new v Precision.Exact Composite.identity Composite.identity)))
  | .StringLiteral v => .ok (Data.Value (ValueData.String v))
  | .ApplyFunction _ _ => .panicked
  | .UnaryExpr op rhs =>
    (Instance.resolve_expression inst ctx rhs).bind fun r =>
      inst.resolve_unary_expression op r
  | .BinaryExpr lhs op rhs =>
    (Instance.resolve_expression inst ctx lhs).bind fun l =>
      (Instance.resolve_expression inst ctx rhs).bind fun r =>
        inst.resolve_binary_expression l op r
  | .BuildEntity properties class_names =>
    match Instance.resolveClassNames inst [] class_names with
    | Option.none => .err
    | Option.some classes =>
      (Instance.resolveProperties inst ctx properties).bind fun props =>
        .ok (Data.Value (ValueData.Entity (Entity.mk props classes)))
  | .LookupName name =>
    match ctx.resolve (inst.lookup_item name) with
    | Option.some data => .ok data
    | Option.none => .err

/-- The property-resolution loop of the `BuildEntity` arm
(`properties.iter().map(..).collect::<Result<_, _>>()`). -/
def Instance.resolveProperties (inst : Instance)
    (ctx : AmbiguityResolutionContext) :
    List (String × Expression) → Res (List (String × Data))
  | [] => .ok []
  | (n, e) :: rest =>
    (Instance.resolve_expression inst ctx e).bind fun d =>
      (Instance.resolveProperties inst ctx rest).bind fun ps =>
        .ok ((n, d) :: ps)

end

/-! ## instance.rs: unit declaration with metric prefix expansion -/

/-- `declare_meta_item`: rejected (with nothing inserted) when any of the
names is already a key of the meta-item namespace. -/
def Instance.declare_meta_item (inst : Instance) (names : List String)
    (data : MetaData) : Option Instance :=
  if inst.meta_items.containsAnyKey names then Option.none
  else Option.some { inst with meta_items := inst.meta_items.insert names data }

/-- The per-alias prefixable-name computation in `add_unit`: decapitalize
the first character.  `Option.none` models the `debug_assert!(false)`
panic on an empty alias. -/
def decapitalize (name : String) : Option String :=
  match name.toList with
  | [] => Option.none
  | c :: rest => Option.some (String.mk (Char.toLower c :: rest))

/-- The prefixable-name loop of `add_unit`: decapitalize every alias, in
order; `Option.none` is the panic on the first empty alias. -/
def decapitalizeAll : List String → Option (List String)
  | [] => Option.some []
  | n :: rest =>
    match decapitalize n, decapitalizeAll rest with
    | Option.some d, Option.some ds => Option.some (d :: ds)
    | _, _ => Option.none

/-- The variant-generation phase of `add_unit`: no variants for a plain
unit; for (partial) metric units, one variant per (retained) prefix, whose
names prepend the prefix name to the decapitalized aliases, whose symbol
prepends the prefix abbreviation, and whose base ratio is multiplied by
the prefix factor.  `Option.none` is the panic on an empty alias. -/
def makeVariants (u : Unit) (prefix_type : UnitPrefixType) :
    Option (List Unit) :=
  match prefix_type with
  | .None => Option.some []
  | .Metric | .PartialMetric =>
    (decapitalizeAll u.names).map fun prefixable_names =>
      let start_from :=
        match prefix_type with
        | .PartialMetric => SMALL_PREFIXES_START
        | _ => 0
      (METRIC_PREFIXES.drop start_from).map fun pfx =>
        { names := prefixable_names.map fun name => pfx.1 ++ name,
          class_ := u.class_,
          symbol := pfx.2.1 ++ u.symbol,
          baseRatio := u.baseRatio * pfx.2.2 }

/-- Result of `add_unit` (`Result<UnitId, ()>` on a `&mut self`): the
mutated instance is observable in the error case too. -/
inductive AddResult where
  | ok (id : ℕ) (s : Instance)
  | err (s : Instance)
  | panicked

/-- `AddResult` is an error. -/
def AddResult.isErr : AddResult → Bool
  | .err _ => true
  | _ => false

/-- The instance carried by an `add_unit` outcome (the panic case carries
none; a fresh instance stands in). -/
def AddResult.state : AddResult → Instance
  | .ok _ s => s
  | .err s => s
  | .panicked => Instance.new

/-- The registration loop over generated variants: each variant is pushed
into the unit arena FIRST, then its names are declared; a name collision
at that point aborts with the already-performed pushes kept. -/
def pushVariantsLoop : Instance → List Unit → Bool × Instance
  | inst, [] => (true, inst)
  | inst, v :: rest =>
    let id := inst.units.length
    let inst' := { inst with units := inst.units ++ [v] }
    match inst'.declare_meta_item v.names (MetaData.Unit (Composite.fromId id)) with
    | Option.none => (false, inst')
    | Option.some inst'' => pushVariantsLoop inst'' rest

/-- `Instance::add_unit`: generate variants, check every variant's names
against the existing meta-item namespace, then declare and push the base
unit, then push-and-declare each variant in order. -/
def Instance.add_unit (inst : Instance) (unit : Unit)
    (prefix_type : UnitPrefixType) : AddResult :=
  match makeVariants unit prefix_type with
  | Option.none => AddResult.panicked
  | Option.some variants =>
    if variants.any (fun v => inst.meta_items.containsAnyKey v.names) then
      AddResult.err inst
    else
      let id := inst.units.length
      match inst.declare_meta_item unit.names (MetaData.Unit (Composite.fromId id)) with
      | Option.none => AddResult.err inst
      | Option.some inst' =>
        let inst'' := { inst' with units := inst'.units ++ [unit] }
        match pushVariantsLoop inst'' variants with
        | (true, final) => AddResult.ok id final
        | (false, final) => AddResult.err final

/-! ## Theorems -/

/-- **C1.**  The claim says `Instance::resolve_expression` returns an
error result (an unimplemented-feature error) on a function-application
expression and never aborts.  In the source the `ApplyFunction` arm is
`unimplemented!()`, which panics: evaluating any `ApplyFunction` node —
here `1()` on a fresh instance — aborts instead of returning `Err`. -/
theorem applyFunction_evaluation_panics :
    Instance.resolve_expression Instance.new AmbiguityResolutionContext.PreferValues
      (Expression.ApplyFunction (Expression.NumericLiteral 1) []) = Res.panicked := by
  simp [Instance.resolve_expression]

/-- **C9.**  Under the evaluator of `instance.rs` (which requires a
`String` variant of `ValueData`; the spec lists one), every string-literal
expression evaluates to `Ok` of the `String` value holding the literal's
text.  But the `ValueData` declaration actually present in `data.rs`
(mirrored verbatim by `ValueDataAsDeclared`) has only the `Scalar` and
`Entity` variants, so the claimed variant does not exist there: every
inhabitant is a scalar or an entity. -/
theorem string_literal_evaluation :
    (∀ (inst : Instance) (ctx : AmbiguityResolutionContext) (s : String),
      Instance.resolve_expression inst ctx (Expression.StringLiteral s) =
        Res.ok (Data.Value (ValueData.String s))) ∧
    (∀ v : ValueDataAsDeclared,
      (∃ s, v = ValueDataAsDeclared.Scalar s) ∨
      (∃ e, v = ValueDataAsDeclared.Entity e)) := by
  constructor
  · intro inst ctx s
    simp [Instance.resolve_expression]
  · intro v
    cases v with
    | Scalar s => exact Or.inl ⟨s, rfl⟩
    | Entity e => exact Or.inr ⟨e, rfl⟩

/-- Unfolding lemma for the merge of two nonempty factor lists. -/
theorem mergeFactors_cons_cons {I : Type} [LinearOrder I] (p q : ℝ × I)
    (xs ys : List (ℝ × I)) :
    mergeFactors (p :: xs) (q :: ys) =
      if p.2 < q.2 then p :: mergeFactors xs (q :: ys)
      else if q.2 < p.2 then q :: mergeFactors (p :: xs) ys
      else if EPSILON < |p.1 + q.1| then
        (p.1 + q.1, p.2) :: mergeFactors xs ys
      else mergeFactors xs ys := by
  rw [mergeFactors]

@[simp]
theorem mergeFactors_nil_left {I : Type} [LinearOrder I] (ys : List (ℝ × I)) :
    mergeFactors [] ys = ys := by
  rw [mergeFactors]

@[simp]
theorem mergeFactors_nil_right {I : Type} [LinearOrder I] (xs : List (ℝ × I)) :
    mergeFactors xs [] = xs := by
  cases xs with
  | nil => rw [mergeFactors]
  | cons x xs => rw [mergeFactors]

/-- **C6.**  `Div` for composites is multiplication by the divisor with
every power negated — that part matches the source.  But `DivAssign` is
implemented as `*self = self.clone() * rhs;`, a multiplication: on the
singleton composites of ids 0 and 1, `a /= b` produces `a * b`, which is
not dimensionally equal to `a / b`, so the two entry points disagree. -/
theorem composite_div_entry_points :
    (∀ a b : Composite ℕ, Composite.div a b = Composite.mul a (Composite.negated b)) ∧
    Composite.divAssign (Composite.fromId 0) (Composite.fromId (1 : ℕ)) =
      Composite.mul (Composite.fromId 0) (Composite.fromId 1) ∧
    Composite.eqb
      (Composite.divAssign (Composite.fromId 0) (Composite.fromId (1 : ℕ)))
      (Composite.div (Composite.fromId 0) (Composite.fromId 1)) = false := by
  refine ⟨fun a b => rfl, rfl, ?_⟩
  norm_num [Composite.eqb, Composite.div, Composite.divAssign, Composite.mul,
    Composite.negated, Composite.fromId, Composite.is_identity, bagMul,
    mergeFactors_cons_cons, EPSILON]

/-- **C5.**  Composite equality is dimensional: `a == b` is
`(a / b).is_identity()`; hence `(a/a).is_identity()` for every singleton,
singletons of distinct ids compare unequal, and `(a*b)/b == a`. -/
theorem composite_equality_is_dimensional {I : Type} [LinearOrder I] :
    (∀ a b : Composite I, Composite.eqb a b = (Composite.div a b).is_identity) ∧
    (∀ i : I,
      (Composite.div (Composite.fromId i) (Composite.fromId i)).is_identity = true) ∧
    (∀ i j : I, i ≠ j →
      Composite.eqb (Composite.fromId i) (Composite.fromId j) = false) ∧
    (∀ i j : I,
      Composite.eqb
        (Composite.div (Composite.mul (Composite.fromId i) (Composite.fromId j))
          (Composite.fromId j))
        (Composite.fromId i) = true) := by
  refine ⟨fun a b => rfl, ?_, ?_, ?_⟩
  · intro i
    norm_num [Composite.div, Composite.mul, Composite.negated, Composite.fromId,
      Composite.is_identity, bagMul, mergeFactors_cons_cons, EPSILON]
  · intro i j hne
    rcases hne.lt_or_lt with h | h
    · norm_num [Composite.eqb, Composite.div, Composite.mul, Composite.negated,
        Composite.fromId, Composite.is_identity, bagMul, mergeFactors_cons_cons,
        h, h.not_lt, h.ne]
    · norm_num [Composite.eqb, Composite.div, Composite.mul, Composite.negated,
        Composite.fromId, Composite.is_identity, bagMul, mergeFactors_cons_cons,
        h, h.not_lt, h.ne']
  · intro i j
    rcases lt_trichotomy i j with h | h | h
    · norm_num [Composite.eqb, Composite.div, Composite.mul, Composite.negated,
        Composite.fromId, Composite.is_identity, bagMul, mergeFactors_cons_cons,
        h, h.not_lt, h.ne, EPSILON]
    · subst h
      norm_num [Composite.eqb, Composite.div, Composite.mul, Composite.negated,
        Composite.fromId, Composite.is_identity, bagMul, mergeFactors_cons_cons,
        EPSILON]
    · norm_num [Composite.eqb, Composite.div, Composite.mul, Composite.negated,
        Composite.fromId, Composite.is_identity, bagMul, mergeFactors_cons_cons,
        h, h.not_lt, h.ne', EPSILON]

/-- Witness for `composite_equality_is_dimensional` at the distinct ids
0 and 1. -/
theorem composite_equality_is_dimensional_witness :
    (0 : ℕ) ≠ 1 ∧
      Composite.eqb (Composite.fromId (0 : ℕ)) (Composite.fromId 1) = false :=
  ⟨by decide,
    (composite_equality_is_dimensional (I := ℕ)).2.2.1 0 1 (by decide)⟩

/-- **C7.**  `Scalar::add` and `Scalar::sub` fail exactly when the two
operands' dimension composites are not dimensionally equal; multiplication
and division are total and compose the dimension as the composite product
resp. quotient. -/
theorem scalar_add_sub_dimension_errors :
    ∀ a b : Scalar,
      (Scalar.add a b = Option.none ↔ Composite.eqb a.unit b.unit = false) ∧
      (Scalar.sub a b = Option.none ↔ Composite.eqb a.unit b.unit = false) ∧
      (Scalar.mulOp a b).unit = Composite.mul a.unit b.unit ∧
      (Scalar.divOp a b).unit = Composite.div a.unit b.unit := by
  intro a b
  refine ⟨?_, ?_, rfl, rfl⟩
  · by_cases hc : Composite.eqb a.unit b.unit = false
    · simp [Scalar.add, hc]
    · simp [Scalar.add, hc]
  · by_cases hc : Composite.eqb a.unit b.unit = false
    · simp [Scalar.sub, Scalar.add, Scalar.neg, hc]
    · simp [Scalar.sub, Scalar.add, Scalar.neg, hc]

/-- The multiplicative precision-combination rule exactly as the claim
states it: an `Exact` operand is transparent, two `SigFigs` take the
minimum count, and any `PercentError` present combines as the
root-sum-of-squares of the two operands' percent errors (a `SigFigs`
operand converted via `percent_error` of its value first). -/
def combinedPrecisionSpec (a b : Scalar) : Precision :=
  match a.precision, b.precision with
  | Precision.Exact, Precision.Exact => Precision.Exact
  | Precision.Exact, p => p
  | p, Precision.Exact => p
  | Precision.SigFigs m, Precision.SigFigs n => Precision.SigFigs (min m n)
  | _, _ =>
    Precision.PercentError (Real.sqrt
      (Precision.percent_error a.precision a.value *
         Precision.percent_error a.precision a.value +
       Precision.percent_error b.precision b.value *
         Precision.percent_error b.precision b.value))

/-- **C4.**  Scalar multiplication and division both propagate precision
exactly as the claim's rule (`combinedPrecisionSpec`) prescribes. -/
theorem scalar_mul_div_precision :
    ∀ a b : Scalar,
      (Scalar.mulOp a b).precision = combinedPrecisionSpec a b ∧
      (Scalar.divOp a b).precision = combinedPrecisionSpec a b := by
  intro a b
  obtain ⟨av, ap, au, ad⟩ := a
  obtain ⟨bv, bp, bu, bd⟩ := b
  cases ap <;> cases bp <;>
    simp only [Scalar.mulOp, Scalar.divOp, combinedPrecisionSpec,
      Precision.percent_error, and_self, true_and, and_true]
  rw [add_comm]

/-- `percent_error` exactly as the claim words it: for `SigFigs(n)` the
range is `10^(floor(log10(|v|)) + 1 − n)`, returned divided by `v`;
`PercentError(p)` gives `p`; `Exact` gives 0. -/
def percentErrorClaimSpec (p : Precision) (v : ℝ) : ℝ :=
  match p with
  | .SigFigs n => ((10 : ℝ) ^ (⌊Real.logb 10 |v|⌋ + 1 - n)) / v
  | .PercentError q => q
  | .Exact => 0

/-- `percent_error` as the source actually computes it: the exponent uses
`log10(v).trunc()` (truncation toward zero, no absolute value), not
`floor(log10(|v|))`.  The two agree for `v ≥ 1` but differ on `(0, 1)`. -/
def percentErrorAmendedSpec (p : Precision) (v : ℝ) : ℝ :=
  match p with
  | .SigFigs n => ((10 : ℝ) ^ (f64trunc (Real.logb 10 v) + 1 - n)) / v
  | .PercentError q => q
  | .Exact => 0

/-- **C3, counterexample.**  At `v = 1/2`, `n = 1` the source's
`percent_error` yields `10^(0+1−1)/(1/2) = 2` (truncation of
`log10(1/2) ≈ −0.301` toward zero is `0`), while the claim's formula
yields `10^(−1+1−1)/(1/2) = 1/5` (the floor is `−1`). -/
theorem percent_error_truncates_not_floors :
    Precision.percent_error (Precision.SigFigs 1) (1 / 2) ≠
      percentErrorClaimSpec (Precision.SigFigs 1) (1 / 2) := by
  have hb : (1 : ℝ) < 10 := by norm_num
  have hL0 : Real.logb 10 ((1 : ℝ) / 2) < 0 :=
    Real.logb_neg hb (by norm_num) (by norm_num)
  have h10 : Real.logb 10 ((1 : ℝ) / 10) = -1 := by
    rw [show ((1 : ℝ) / 10) = (10 : ℝ)⁻¹ by norm_num, Real.logb_inv,
      Real.logb_self_eq_one hb]
  have hL1 : (-1 : ℝ) < Real.logb 10 ((1 : ℝ) / 2) := by
    have h := Real.logb_lt_logb hb (by norm_num : (0 : ℝ) < 1 / 10)
      (by norm_num : (1 : ℝ) / 10 < 1 / 2)
    rw [h10] at h
    exact h
  have htr : f64trunc (f64log10 ((1 : ℝ) / 2)) = 0 := by
    rw [f64log10, f64trunc, if_neg (not_le.mpr hL0), Int.ceil_eq_zero_iff]
    exact Set.mem_Ioc.mpr ⟨hL1, hL0.le⟩
  have hfl : ⌊Real.logb 10 |(1 : ℝ) / 2|⌋ = -1 := by
    rw [show |(1 : ℝ) / 2| = 1 / 2 by norm_num, Int.floor_eq_iff]
    constructor
    · push_cast
      exact hL1.le
    · push_cast
      linarith
  simp only [Precision.percent_error, percentErrorClaimSpec, htr, hfl]
  norm_num

/-- **C3, amended.**  For every positive value (the domain on which the
real-number model of `f64::log10` is faithful), `percent_error` computes
exactly the amended formula: truncation toward zero of `log10(v)` in the
`SigFigs` exponent, `p` for `PercentError(p)`, and 0 for `Exact`. -/
theorem percent_error_cases :
    ∀ (p : Precision) (v : ℝ), 0 < v →
      Precision.percent_error p v = percentErrorAmendedSpec p v := by
  intro p v _
  cases p <;> rfl

/-- Witness for `percent_error_cases` at `SigFigs 1`, `v = 2`. -/
theorem percent_error_cases_witness :
    (0 : ℝ) < 2 ∧
      Precision.percent_error (Precision.SigFigs 1) 2 =
        percentErrorAmendedSpec (Precision.SigFigs 1) 2 :=
  ⟨by norm_num, percent_error_cases (Precision.SigFigs 1) 2 (by norm_num)⟩

/-- Whether a precision is `SigFigs` with a non-negative count. -/
def Precision.nonnegSigFigs : Precision → Bool
  | .SigFigs n => decide (0 ≤ n)
  | _ => false

/-- The clamp property of `Scalar::add`: whenever the addition succeeds,
its precision is `SigFigs` of a non-negative count (the computation is
floored at 0).  Stated for a fixed operand pair. -/
def addSigFigsClamp (a b : Scalar) : Prop :=
  match Scalar.add a b with
  | Option.none => True
  | Option.some r => r.precision.nonnegSigFigs = true

/-- **C10, counterexample.**  The `scones`-generated `Scalar::new`
constructor validates nothing: it happily constructs a scalar whose
precision is `SigFigs(0)`, contradicting the claim that no construction
path yields a sig-fig count below 1. -/
theorem scalar_new_accepts_sigfigs_zero :
    (Scalar.new 1 (Precision.SigFigs 0) Composite.identity
        Composite.identity).precision = Precision.SigFigs 0 ∧
      ¬((1 : ℤ) ≤ 0) :=
  ⟨rfl, by decide⟩

/-- **C10, amended.**  The constructor stores any precision verbatim
(no validation), and the additive sig-fig computation clamps its count at
a floor of 0: when both operands carry `SigFigs` precision, a successful
`Scalar::add` yields `SigFigs(n)` with `n ≥ 0` (0 itself is possible). -/
theorem scalar_add_sigfigs_clamped :
    (∀ (v : ℝ) (p : Precision) (u : CompositeUnitClass) (d : CompositeUnit),
      (Scalar.new v p u d).precision = p) ∧
    (∀ (a b : Scalar) (lsf rsf : ℤ),
      a.precision = Precision.SigFigs lsf →
      b.precision = Precision.SigFigs rsf →
      addSigFigsClamp a b) := by
  constructor
  · intro v p u d
    rfl
  · intro a b lsf rsf ha hb
    obtain ⟨av, ap, au, ad⟩ := a
    obtain ⟨bv, bp, bu, bd⟩ := b
    simp only at ha hb
    subst ha
    subst hb
    unfold addSigFigsClamp Scalar.add
    by_cases hc : Composite.eqb au bu = false
    · simp [hc]
    · rw [if_neg hc]
      dsimp only
      simp only [Precision.nonnegSigFigs, decide_eq_true_eq]
      exact le_max_right _ _

/-- Witness for `scalar_add_sigfigs_clamped` on two unitless `SigFigs 2`
scalars. -/
theorem scalar_add_sigfigs_clamped_witness :
    (Scalar.new 1 (Precision.SigFigs 2) Composite.identity
        Composite.identity).precision = Precision.SigFigs 2 ∧
    (Scalar.new 5 (Precision.SigFigs 2) Composite.identity
        Composite.identity).precision = Precision.SigFigs 2 ∧
    addSigFigsClamp
      (Scalar.new 1 (Precision.SigFigs 2) Composite.identity Composite.identity)
      (Scalar.new 5 (Precision.SigFigs 2) Composite.identity Composite.identity) :=
  ⟨rfl, rfl, scalar_add_sigfigs_clamped.2 _ _ 2 2 rfl rfl⟩

/-- Decapitalization of an alias as the claim describes it (total; the
source's `debug_assert!(false)` panic on an empty alias is excluded by the
theorem's hypothesis). -/
def decapitalizeSpec (s : String) : String :=
  match s.toList with
  | [] => s
  | c :: rest => String.mk (Char.toLower c :: rest)

/-- One generated prefix variant as the claim describes it: each alias is
the prefix name prepended to the decapitalized alias, the symbol is the
prefix abbreviation prepended to the base symbol, and the base ratio is
the base unit's ratio times the prefix factor. -/
def variantSpec (u : Unit) (pfx : String × String × ℝ) : Unit :=
  { names := u.names.map fun a => pfx.1 ++ decapitalizeSpec a,
    class_ := u.class_,
    symbol := pfx.2.1 ++ u.symbol,
    baseRatio := u.baseRatio * pfx.2.2 }

/-- On a nonempty alias the source's decapitalization succeeds and agrees
with `decapitalizeSpec`. -/
theorem decapitalize_of_ne_nil (s : String) (h : s.toList ≠ []) :
    decapitalize s = Option.some (decapitalizeSpec s) := by
  unfold decapitalize decapitalizeSpec
  cases hs : s.toList with
  | nil => exact absurd hs h
  | cons c rest => simp [hs]

/-- Alias decapitalization over a list of nonempty aliases. -/
theorem decapitalizeAll_of_ne_nil (l : List String)
    (h : ∀ n ∈ l, n.toList ≠ []) :
    decapitalizeAll l = Option.some (l.map decapitalizeSpec) := by
  induction l with
  | nil => rfl
  | cons x xs ih =>
    have hx := h x (by simp)
    have hxs : ∀ n ∈ xs, n.toList ≠ [] := fun n hn => h n (by simp [hn])
    simp [decapitalizeAll, decapitalize_of_ne_nil x hx, ih hxs]

/-- **C8.**  For a unit whose aliases are all nonempty, `Metric` generates
exactly one variant per entry of the 20-prefix table (Yotta … Yocto),
each formed as the claim states; `PartialMetric` generates only the 10
sub-unity prefixes (Deci … Yocto). -/
theorem metric_prefix_expansion :
    ∀ u : Unit, (∀ n ∈ u.names, n.toList ≠ []) →
      makeVariants u UnitPrefixType.Metric =
          Option.some (METRIC_PREFIXES.map (variantSpec u)) ∧
      makeVariants u UnitPrefixType.PartialMetric =
          Option.some
            ((METRIC_PREFIXES.drop SMALL_PREFIXES_START).map (variantSpec u)) ∧
      METRIC_PREFIXES.length = 20 ∧
      (METRIC_PREFIXES.drop SMALL_PREFIXES_START).length = 10 ∧
      METRIC_PREFIXES.map (fun p => p.1) =
        ["Yotta", "Zetta", "Exa", "Peta", "Tera", "Giga", "Mega", "Kilo",
         "Hecto", "Deka", "Deci", "Centi", "Milli", "Micro", "Nano", "Pico",
         "Femto", "Atto", "Zepto", "Yocto"] ∧
      (METRIC_PREFIXES.drop SMALL_PREFIXES_START).map (fun p => p.1) =
        ["Deci", "Centi", "Milli", "Micro", "Nano", "Pico", "Femto", "Atto",
         "Zepto", "Yocto"] := by
  intro u h
  refine ⟨?_, ?_, rfl, rfl, rfl, rfl⟩
  · unfold makeVariants
    rw [decapitalizeAll_of_ne_nil u.names h]
    simp only [Option.map, List.map_map, Function.comp_def]
    rfl
  · unfold makeVariants
    rw [decapitalizeAll_of_ne_nil u.names h]
    simp only [Option.map, List.map_map, Function.comp_def]
    rfl

/-- Witness for `metric_prefix_expansion` on a one-alias metric unit. -/
theorem metric_prefix_expansion_witness :
    (∀ n ∈ (Unit.mk ["Meter"] Composite.identity "m" 1).names,
      n.toList ≠ []) ∧
    makeVariants (Unit.mk ["Meter"] Composite.identity "m" 1)
        UnitPrefixType.Metric =
      Option.some (METRIC_PREFIXES.map
        (variantSpec (Unit.mk ["Meter"] Composite.identity "m" 1))) :=
  ⟨by decide, (metric_prefix_expansion
      (Unit.mk ["Meter"] Composite.identity "m" 1) (by decide)).1⟩

/-- **C2, amended.**  When any of the declaration's own alias names, or
any generated variant name, already exists in the meta-item namespace
before the call, `add_unit` fails and returns the instance exactly as it
was — no unit stored, no name inserted. -/
theorem add_unit_atomic_on_preexisting_collision :
    ∀ (inst : Instance) (u : Unit) (pt : UnitPrefixType) (variants : List Unit),
      makeVariants u pt = Option.some variants →
      (inst.meta_items.containsAnyKey u.names = true ∨
        variants.any (fun v => inst.meta_items.containsAnyKey v.names) = true) →
      Instance.add_unit inst u pt = AddResult.err inst := by
  intro inst u pt variants hmk hcol
  unfold Instance.add_unit
  rw [hmk]
  dsimp only
  rcases hcol with hbase | hvar
  · by_cases hv :
      variants.any (fun v => inst.meta_items.containsAnyKey v.names) = true
    · rw [if_pos hv]
    · rw [if_neg hv]
      unfold Instance.declare_meta_item
      rw [if_pos hbase]
  · rw [if_pos hvar]

/-- An instance with the single meta name `Meter` declared. -/
def meterInstance : Instance :=
  { Instance.new with
    meta_items :=
      ManyToOneMap.empty.insert ["Meter"] (MetaData.UnitClass Composite.identity) }

/-- A `Meter` base unit (aliases `Kilometer`, `Meter`) whose `Kilo`
variant name collides with its own first alias. -/
def kmUnit : Unit := Unit.mk ["Kilometer", "Meter"] Composite.identity "m" 1

/-- Witness for `add_unit_atomic_on_preexisting_collision`: redeclaring
`Meter` (no prefixes) on `meterInstance` errors and leaves it unchanged. -/
theorem add_unit_atomic_on_preexisting_collision_witness :
    makeVariants (Unit.mk ["Meter"] Composite.identity "m" 1)
        UnitPrefixType.None = Option.some [] ∧
    meterInstance.meta_items.containsAnyKey
        (Unit.mk ["Meter"] Composite.identity "m" 1).names = true ∧
    Instance.add_unit meterInstance (Unit.mk ["Meter"] Composite.identity "m" 1)
        UnitPrefixType.None = AddResult.err meterInstance :=
  ⟨rfl, by decide,
    add_unit_atomic_on_preexisting_collision meterInstance
      (Unit.mk ["Meter"] Composite.identity "m" 1) UnitPrefixType.None []
      rfl (Or.inl (by decide))⟩

/-- **C2, counterexample.**  Declaring the metric unit with aliases
`["Kilometer", "Meter"]` on a fresh instance: the `Kilo` variant's name
`Kilometer` collides with the declaration's own first alias.  `add_unit`
does return an error, but the instance is NOT left as it was: the name
`Yottakilometer` became resolvable and the unit arena grew from 0 to 9
entries (the base unit, the seven variants `Yotta…Mega`, and the `Kilo`
variant pushed before its name declaration failed). -/
theorem add_unit_partial_registration_on_self_collision :
    (Instance.add_unit Instance.new kmUnit UnitPrefixType.Metric).isErr = true ∧
    (Instance.add_unit Instance.new kmUnit
        UnitPrefixType.Metric).state.meta_items.containsAnyKey
        ["Yottakilometer"] = true ∧
    Instance.new.meta_items.containsAnyKey ["Yottakilometer"] = false ∧
    (Instance.add_unit Instance.new kmUnit
        UnitPrefixType.Metric).state.units.length = 9 ∧
    Instance.new.units.length = 0 := by
  refine ⟨?_, ?_, rfl, ?_, rfl⟩ <;> rfl

end

end Ackulator
